import Mathlib

/-!
Shallow embedding of the `squash` crate (`src/lib.rs`): a single-allocation
owned slice `OwnedSlice<T, H>` whose handle is one pointer, with a pluggable
`Header` describing length encoding and ownership policy, a process-wide
zero sentinel standing for the empty slice, and a `Str` wrapper over bytes.

Modelling choices:
* Machine memory is an explicit allocator heap: an association list from
  addresses (`Nat`) to allocations `(header value, element list)`, together
  with a fresh-address counter.  Address `0` plays the role of the address of
  the static `ZERO_SENTINEL` byte: the allocator never hands it out (its
  counter starts at `1` and only grows).
* A handle (`OwnedSlice` value) is just an address, exactly as the Rust
  struct is just the `NonNull<H>` pointer.
* The `Header` trait becomes a structure of functions; `BoxHeader`'s `u8`
  payload is a `Nat` and the `len as u8` cast is `% 256`.  `BoxHeader` uses
  no overflow-length bytes, so the `extra` pointer parameters of
  `encode_len` / `decode_len` are dropped from the model.
* Stateful operations pass the heap explicitly; fallible operations return
  `Except`; `drop` additionally reports the list of elements it tears down
  (in order) and the length from which the freed layout was recomputed, so
  teardown-once properties are observable.
-/

namespace Squash

/-- Embeds `struct TooLong` (src/lib.rs line 21), the single error of the crate. -/
inductive TooLong : Type where
  | mk : TooLong
deriving DecidableEq

/-- Embeds `trait Header` (src/lib.rs lines 31-37) as a structure of functions.
`extra_needed` is the capacity check returning the number of overflow-length
bytes, `encode_len` / `decode_len` the length encoding (the overflow region
pointer is dropped: the one implementation in the crate ignores it), and
`inc` / `dec` the clone / drop reference-count policy. -/
structure Header (H : Type) where
  extra_needed : Nat → Except TooLong Nat
  encode_len : Nat → H
  decode_len : H → Nat
  inc : H → Bool
  dec : H → Bool

/-- Embeds `BoxHeader` and its `Header` impl (src/lib.rs lines 39-68): a one
byte length (`u8` modelled as `Nat`, the `len as u8` cast as `% 256`),
`extra_needed` of `0` for lengths up to `u8::MAX = 255` and `TooLong` beyond,
never sharing (`inc` is `false`), always the last owner (`dec` is `true`). -/
def BoxHeader : Header Nat where
  extra_needed len := if len > 255 then Except.error TooLong.mk else Except.ok 0
  encode_len len := len % 256
  decode_len h := h
  inc _ := false
  dec _ := true

/-- Equality of `Result` values is decidable (used to evaluate the model on
concrete inputs). -/
instance {ε α : Type} [DecidableEq ε] [DecidableEq α] : DecidableEq (Except ε α)
  | Except.ok a, Except.ok b =>
    if h : a = b then isTrue (by rw [h])
    else isFalse (by intro hh; cases hh; exact h rfl)
  | Except.ok _, Except.error _ => isFalse (by intro h; cases h)
  | Except.error _, Except.ok _ => isFalse (by intro h; cases h)
  | Except.error a, Except.error b =>
    if h : a = b then isTrue (by rw [h])
    else isFalse (by intro hh; cases hh; exact h rfl)

/-- Address of the static `ZERO_SENTINEL` byte (src/lib.rs line 18): the one
distinguished non-null address that is never returned by the allocator. -/
def sentinelAddr : Nat := 0

/-- The allocator state: live allocations keyed by address, plus the next
fresh address.  `nextAddr` starts above `sentinelAddr` and only grows, which
models the guarantee that the allocator never returns the sentinel's (or the
null) address. -/
structure Heap (α H : Type) where
  nextAddr : Nat
  cells : List (Nat × H × List α)
deriving DecidableEq

/-- A heap with no allocations; the first address handed out is `1`. -/
def Heap.empty (α H : Type) : Heap α H := ⟨1, []⟩

/-- Reads the allocation at address `a`, if `a` is live. -/
def Heap.lookup {α H : Type} (h : Heap α H) (a : Nat) : Option (H × List α) :=
  (h.cells.find? (fun c => c.1 == a)).map (fun c => c.2)

/-- Models `alloc::alloc` (src/lib.rs line 146) together with the writes that
initialize the fresh allocation: header first, then the cloned elements in
order (src/lib.rs lines 156-161).  Returns the new heap and the address. -/
def Heap.alloc {α H : Type} (h : Heap α H) (hdr : H) (data : List α) :
    Heap α H × Nat :=
  (⟨h.nextAddr + 1, (h.nextAddr, hdr, data) :: h.cells⟩, h.nextAddr)

/-- In-place mutation of the allocation at address `a`. -/
def Heap.update {α H : Type} (h : Heap α H) (a : Nat)
    (f : H × List α → H × List α) : Heap α H :=
  ⟨h.nextAddr, h.cells.map (fun c => if c.1 == a then (c.1, f c.2) else c)⟩

/-- Models `alloc::dealloc` (src/lib.rs line 194): the allocation at `a` is
no longer live. -/
def Heap.free {α H : Type} (h : Heap α H) (a : Nat) : Heap α H :=
  ⟨h.nextAddr, h.cells.filter (fun c => c.1 != a)⟩

/-- Allocator-state invariant: the fresh counter is past the sentinel address
and past every live allocation, so freshly allocated addresses are really
fresh and never the sentinel. -/
def Heap.WF {α H : Type} (h : Heap α H) : Prop :=
  1 ≤ h.nextAddr ∧ ∀ c ∈ h.cells, c.1 < h.nextAddr

instance {α H : Type} (h : Heap α H) : Decidable h.WF := by
  unfold Heap.WF; infer_instance

/-- Embeds `OwnedSlice::is_sentinel` (src/lib.rs lines 130-132): address
identity with the sentinel. -/
def OwnedSlice.isSentinel (a : Nat) : Bool := a == sentinelAddr

/-- Embeds `impl Default for OwnedSlice` (src/lib.rs lines 260-270): the
default handle holds the sentinel's address. -/
def OwnedSlice.defaultHandle : Nat := sentinelAddr

/-- Embeds `OwnedSlice::new` (src/lib.rs lines 134-168).  Empty source: the
sentinel handle, heap untouched.  Otherwise the capacity check
`H::extra_needed` runs first (inside `layout_and_offsets`, before any
allocation); on success one allocation is made and initialized with the
encoded header followed by the elements in order.  Returns the heap after
the call and the `Result`. -/
def OwnedSlice.new {α H : Type} (hi : Header H) (heap : Heap α H)
    (src : List α) : Heap α H × Except TooLong Nat :=
  if src.isEmpty then
    (heap, Except.ok OwnedSlice.defaultHandle)
  else
    match hi.extra_needed src.length with
    | Except.error e => (heap, Except.error e)
    | Except.ok _extra =>
      let p := heap.alloc (hi.encode_len src.length) src
      (p.1, Except.ok p.2)

/-- Embeds `OwnedSlice::len` (src/lib.rs lines 82-93): `0` for the sentinel,
otherwise the length decoded from the header.  A dangling address (no live
allocation) is undefined behaviour in the source; the model returns `0`
there, and no theorem relies on that arbitrary choice. -/
def OwnedSlice.len {α H : Type} (hi : Header H) (heap : Heap α H) (a : Nat) :
    Nat :=
  if OwnedSlice.isSentinel a then 0
  else
    match heap.lookup a with
    | some c => hi.decode_len c.1
    | none => 0

/-- Embeds `impl Deref` (src/lib.rs lines 217-234): empty view for the
sentinel, otherwise the first `len` elements of the allocation, with `len`
read back from the header.  Dangling addresses (undefined behaviour in the
source) yield the empty view in the model. -/
def OwnedSlice.deref {α H : Type} (hi : Header H) (heap : Heap α H)
    (a : Nat) : List α :=
  if OwnedSlice.isSentinel a then []
  else
    match heap.lookup a with
    | some c => c.2.take (hi.decode_len c.1)
    | none => []

/-- Embeds `impl Clone` (src/lib.rs lines 200-215).  A non-sentinel handle
whose header grants a new reference (`inc`) is copied as the same address;
otherwise `new` runs again over the current view.  The source unwraps the
result with `expect`; the model keeps the `Except` so that the
unreachability of that panic is a provable statement. -/
def OwnedSlice.clone {α H : Type} (hi : Header H) (heap : Heap α H)
    (a : Nat) : Heap α H × Except TooLong Nat :=
  if !OwnedSlice.isSentinel a &&
      (match heap.lookup a with
       | some c => hi.inc c.1
       | none => false) then
    (heap, Except.ok a)
  else
    OwnedSlice.new hi heap (OwnedSlice.deref hi heap a)

/-- Embeds `impl Drop` (src/lib.rs lines 173-198).  Returns the heap after
the call, the elements torn down by `drop_in_place` in loop order (the
observable teardown when the element type has any; empty when the drop was a
no-op), and `some l` when the allocation was released using the layout
recomputed from the length `l` read from the header (`none` when nothing was
deallocated). -/
def OwnedSlice.drop {α H : Type} (hi : Header H) (heap : Heap α H)
    (a : Nat) : Heap α H × List α × Option Nat :=
  if OwnedSlice.isSentinel a then (heap, [], none)
  else
    match heap.lookup a with
    | some c =>
      if hi.dec c.1 then
        let l := hi.decode_len c.1
        (heap.free a, c.2.take l, some l)
      else (heap, [], none)
    | none => (heap, [], none)

/-- Embeds one store through the `DerefMut` view (src/lib.rs lines 236-248):
writing element `i` of the slice behind handle `a`.  The sentinel's view is
the empty slice, so no store happens there; `List.set` leaves out-of-range
indices unchanged (in the source such an index can not be expressed through
the length-`len` view). -/
def OwnedSlice.setElem {α H : Type} (heap : Heap α H) (a : Nat) (i : Nat)
    (v : α) : Heap α H :=
  if OwnedSlice.isSentinel a then heap
  else heap.update a (fun c => (c.1, c.2.set i v))

/-- Embeds `Str::new` (src/lib.rs lines 293-295): a `&str` is its UTF-8
bytes, and construction delegates to `OwnedSlice::new` over them. -/
def Str.new {H : Type} (hi : Header H) (heap : Heap UInt8 H)
    (s : List UInt8) : Heap UInt8 H × Except TooLong Nat :=
  OwnedSlice.new hi heap s

/-- Embeds `impl Deref for Str` (src/lib.rs lines 316-326):
`str::from_utf8_unchecked` is a cast, so the text view is exactly the byte
view of the underlying slice. -/
def Str.deref {H : Type} (hi : Header H) (heap : Heap UInt8 H) (a : Nat) :
    List UInt8 :=
  OwnedSlice.deref hi heap a

/-- Embeds `impl Display for Str` (src/lib.rs lines 307-314): `{}` of a
`str` writes its bytes unchanged. -/
def Str.display {H : Type} (hi : Header H) (heap : Heap UInt8 H) (a : Nat) :
    List UInt8 :=
  Str.deref hi heap a

/-- Models the Rust standard library's `Debug` escaping for one byte of a
`str` (as used by `write!("{:?}", s)`; the standard library is outside this
crate's sources): quote and backslash are backslash-escaped, newline,
carriage return and tab become `\n` / `\r` / `\t`, other printable ASCII is
kept, and anything else is written as a `\u` brace escape of its value. -/
def escapeDebugByte (b : UInt8) : List UInt8 :=
  if b == 34 then [92, 34]
  else if b == 92 then [92, 92]
  else if b == 10 then [92, 110]
  else if b == 13 then [92, 114]
  else if b == 9 then [92, 116]
  else if 32 ≤ b.toNat && b.toNat ≤ 126 then [b]
  else
    [92, 117, 123,
     (if b.toNat / 16 < 10 then UInt8.ofNat (48 + b.toNat / 16)
      else UInt8.ofNat (87 + b.toNat / 16)),
     (if b.toNat % 16 < 10 then UInt8.ofNat (48 + b.toNat % 16)
      else UInt8.ofNat (87 + b.toNat % 16)),
     125]

/-- Embeds `impl Debug for Str` (src/lib.rs lines 298-305): `{:?}` of a
`str` writes a double quote, the escaped bytes, and a closing double
quote. -/
def Str.debugFmt {H : Type} (hi : Header H) (heap : Heap UInt8 H)
    (a : Nat) : List UInt8 :=
  34 :: ((Str.deref hi heap a).flatMap escapeDebugByte ++ [34])

/-- UTF-8 bytes of a Rust string given as its characters (Rust `str` and
Lean `Char` both hold Unicode scalar values, and both use standard UTF-8). -/
def rustStrBytes (cs : List Char) : List UInt8 :=
  cs.flatMap String.utf8EncodeChar

/-- The bytes of the string "Hello" used by the crate's tests. -/
def helloBytes : List UInt8 := [72, 101, 108, 108, 111]

/-! Helper lemmas about the heap. -/

theorem Heap.lookup_alloc_self {α H : Type} (h : Heap α H) (hdr : H)
    (d : List α) : (h.alloc hdr d).1.lookup h.nextAddr = some (hdr, d) := by
  simp [Heap.alloc, Heap.lookup, List.find?]

theorem Heap.lookup_alloc_ne {α H : Type} (h : Heap α H) (hdr : H)
    (d : List α) (a : Nat) (hne : a ≠ h.nextAddr) :
    (h.alloc hdr d).1.lookup a = h.lookup a := by
  have : (h.nextAddr == a) = false := by
    simp only [beq_eq_false_iff_ne, ne_eq]
    exact fun hh => hne hh.symm
  simp [Heap.alloc, Heap.lookup, List.find?, this]

theorem find?_map_update_ne {α H : Type} (t : List (Nat × H × List α))
    (b a : Nat) (f : H × List α → H × List α) (hne : a ≠ b) :
    (t.map (fun c => if c.1 == b then (c.1, f c.2) else c)).find?
        (fun c => c.1 == a) =
      t.find? (fun c => c.1 == a) := by
  induction t with
  | nil => rfl
  | cons c t ih =>
    rw [List.map_cons]
    by_cases hcb : c.1 = b
    · rw [if_pos (by simpa using hcb),
        List.find?_cons_of_neg _
          (by simp only [beq_iff_eq, hcb]; exact fun hh => hne hh.symm),
        List.find?_cons_of_neg _
          (by simp only [beq_iff_eq, hcb]; exact fun hh => hne hh.symm)]
      exact ih
    · rw [if_neg (by simpa using hcb)]
      by_cases hca : c.1 = a
      · rw [List.find?_cons_of_pos _ (by simpa using hca),
          List.find?_cons_of_pos _ (by simpa using hca)]
      · rw [List.find?_cons_of_neg _ (by simpa using hca),
          List.find?_cons_of_neg _ (by simpa using hca)]
        exact ih

theorem Heap.lookup_update_ne {α H : Type} (h : Heap α H) (b : Nat)
    (f : H × List α → H × List α) (a : Nat) (hne : a ≠ b) :
    (h.update b f).lookup a = h.lookup a := by
  unfold Heap.update Heap.lookup
  rw [find?_map_update_ne h.cells b a f hne]

theorem Heap.WF.alloc {α H : Type} {h : Heap α H} (hwf : h.WF) (hdr : H)
    (d : List α) : ((h.alloc hdr d).1).WF := by
  obtain ⟨h1, h2⟩ := hwf
  refine ⟨?_, ?_⟩
  · simp only [Heap.alloc]
    omega
  · intro c hc
    simp only [Heap.alloc, List.mem_cons] at hc ⊢
    rcases hc with rfl | hc
    · omega
    · exact Nat.lt_succ_of_lt (h2 c hc)

theorem Heap.nextAddr_ne_sentinel {α H : Type} {h : Heap α H} (hwf : h.WF) :
    h.nextAddr ≠ sentinelAddr := by
  obtain ⟨h1, _⟩ := hwf
  simp only [sentinelAddr]
  omega

/-! Helper lemmas about `OwnedSlice.new`. -/

theorem OwnedSlice.new_nil {α H : Type} (hi : Header H) (heap : Heap α H) :
    OwnedSlice.new hi heap [] = (heap, Except.ok sentinelAddr) := rfl

/-- Full case analysis of a successful construction: either the source was
empty and the sentinel came back with the heap untouched, or the capacity
check passed and the handle is the fresh address of a new allocation holding
the encoded header and the source elements. -/
theorem OwnedSlice.new_ok_cases {α H : Type} (hi : Header H)
    (heap heap' : Heap α H) (src : List α) (a : Nat)
    (hnew : OwnedSlice.new hi heap src = (heap', Except.ok a)) :
    (src = [] ∧ heap' = heap ∧ a = sentinelAddr) ∨
    (src ≠ [] ∧ (∃ k, hi.extra_needed src.length = Except.ok k) ∧
      heap' = (heap.alloc (hi.encode_len src.length) src).1 ∧
      a = heap.nextAddr) := by
  cases src with
  | nil =>
    rw [OwnedSlice.new_nil] at hnew
    injection hnew with h1 h2
    injection h2 with h3
    exact Or.inl ⟨rfl, h1.symm, h3.symm⟩
  | cons x xs =>
    unfold OwnedSlice.new at hnew
    rw [if_neg (by simp)] at hnew
    cases hx : hi.extra_needed (x :: xs).length with
    | error e => rw [hx] at hnew; cases hnew
    | ok k =>
      rw [hx] at hnew
      simp only [Prod.mk.injEq, Except.ok.injEq] at hnew
      obtain ⟨rfl, rfl⟩ := hnew
      exact Or.inr ⟨List.cons_ne_nil x xs, ⟨k, rfl⟩, rfl, rfl⟩

/-- The error case of construction: nonempty source whose capacity check
fails; the heap is returned unchanged (nothing was allocated). -/
theorem OwnedSlice.new_err {α H : Type} (hi : Header H) (heap : Heap α H)
    (src : List α) (hne : src ≠ []) (e : TooLong)
    (he : hi.extra_needed src.length = Except.error e) :
    OwnedSlice.new hi heap src = (heap, Except.error e) := by
  unfold OwnedSlice.new
  rw [if_neg (by simpa using hne), he]

/-! Helper lemmas about `BoxHeader`. -/

theorem BoxHeader.extra_needed_eq (n : Nat) :
    BoxHeader.extra_needed n =
      if n > 255 then Except.error TooLong.mk else Except.ok 0 := rfl

theorem BoxHeader.decode_encode (n : Nat) (h : n ≤ 255) :
    BoxHeader.decode_len (BoxHeader.encode_len n) = n := by
  show n % 256 = n
  omega

theorem BoxHeader.inc_eq_false (h : Nat) : BoxHeader.inc h = false := rfl

theorem BoxHeader.dec_eq_true (h : Nat) : BoxHeader.dec h = true := rfl

/-- Specialization of `OwnedSlice.new_ok_cases` to the default header: a
successful construction from a nonempty source means the length passed the
255 check and the handle points at the fresh allocation. -/
theorem OwnedSlice.new_box_ok_cases {α : Type} (heap heap' : Heap α Nat)
    (src : List α) (a : Nat)
    (hnew : OwnedSlice.new BoxHeader heap src = (heap', Except.ok a)) :
    (src = [] ∧ heap' = heap ∧ a = sentinelAddr) ∨
    (src ≠ [] ∧ src.length ≤ 255 ∧
      heap' = (heap.alloc (BoxHeader.encode_len src.length) src).1 ∧
      a = heap.nextAddr) := by
  rcases OwnedSlice.new_ok_cases BoxHeader heap heap' src a hnew with
    h | ⟨hne, ⟨k, hk⟩, hh, ha⟩
  · exact Or.inl h
  · refine Or.inr ⟨hne, ?_, hh, ha⟩
    rw [BoxHeader.extra_needed_eq] at hk
    by_cases hlen : src.length > 255
    · rw [if_pos hlen] at hk; cases hk
    · omega

/-- Reading the view of a live non-sentinel allocation. -/
theorem OwnedSlice.deref_of_lookup {α H : Type} (hi : Header H)
    (heap : Heap α H) (a : Nat) (hdr : H) (data : List α)
    (ha : a ≠ sentinelAddr) (hl : heap.lookup a = some (hdr, data)) :
    OwnedSlice.deref hi heap a = data.take (hi.decode_len hdr) := by
  unfold OwnedSlice.deref
  rw [if_neg (by simpa [OwnedSlice.isSentinel] using ha), hl]

/-- Reading the length of a live non-sentinel allocation. -/
theorem OwnedSlice.len_of_lookup {α H : Type} (hi : Header H)
    (heap : Heap α H) (a : Nat) (hdr : H) (data : List α)
    (ha : a ≠ sentinelAddr) (hl : heap.lookup a = some (hdr, data)) :
    OwnedSlice.len hi heap a = hi.decode_len hdr := by
  unfold OwnedSlice.len
  rw [if_neg (by simpa [OwnedSlice.isSentinel] using ha), hl]

/-- The view of a handle returned by a successful default-header
construction is the source sequence, and its length is the source's. -/
theorem OwnedSlice.new_box_view {α : Type} (heap heap' : Heap α Nat)
    (src : List α) (a : Nat) (hwf : heap.WF)
    (hnew : OwnedSlice.new BoxHeader heap src = (heap', Except.ok a)) :
    OwnedSlice.deref BoxHeader heap' a = src ∧
    OwnedSlice.len BoxHeader heap' a = src.length := by
  rcases OwnedSlice.new_box_ok_cases heap heap' src a hnew with
    ⟨rfl, rfl, rfl⟩ | ⟨hne, hlen, rfl, rfl⟩
  · exact ⟨rfl, rfl⟩
  · have ha := Heap.nextAddr_ne_sentinel hwf
    have hl := Heap.lookup_alloc_self heap (BoxHeader.encode_len src.length) src
    rw [OwnedSlice.deref_of_lookup BoxHeader _ _ _ _ ha hl,
        OwnedSlice.len_of_lookup BoxHeader _ _ _ _ ha hl,
        BoxHeader.decode_encode src.length hlen]
    exact ⟨List.take_length src, rfl⟩

/-- Successful construction for any in-capacity source under the default
header. -/
theorem OwnedSlice.new_box_isOk {α : Type} (heap : Heap α Nat)
    (src : List α) (hlen : src.length ≤ 255) :
    Except.isOk (OwnedSlice.new BoxHeader heap src).2 = true := by
  cases src with
  | nil => rfl
  | cons x xs =>
    unfold OwnedSlice.new
    rw [if_neg (by simp)]
    have hx : BoxHeader.extra_needed (x :: xs).length = Except.ok 0 := by
      rw [BoxHeader.extra_needed_eq, if_neg (by omega)]
    rw [hx]
    rfl

/-- Construction under the default header reports `TooLong` exactly when the
source's length exceeds 255 (an empty source always succeeds). -/
theorem OwnedSlice.new_box_error_iff {α : Type} (heap : Heap α Nat)
    (src : List α) :
    (OwnedSlice.new BoxHeader heap src).2 = Except.error TooLong.mk ↔
      255 < src.length := by
  cases src with
  | nil => simp [OwnedSlice.new_nil]
  | cons x xs =>
    by_cases hl : 255 < (x :: xs).length
    · rw [OwnedSlice.new_err BoxHeader heap (x :: xs) (by simp) TooLong.mk
        (by rw [BoxHeader.extra_needed_eq, if_pos hl])]
      simpa using hl
    · have hok := OwnedSlice.new_box_isOk heap (x :: xs) (by omega)
      constructor
      · intro h
        rw [h] at hok
        cases hok
      · intro h
        exact absurd h hl

/-! The claims. -/

/-- C1: For every sequence of length at most 255 (the default header's
capacity), construction with the default `BoxHeader` header succeeds, and
the handle it returns views exactly the source sequence and reports the
source's length: a round trip of construction and dereference. -/
theorem construct_roundtrip_box {α : Type} (heap heap' : Heap α Nat)
    (src : List α) (a : Nat) (hwf : heap.WF) (hlen : src.length ≤ 255) :
    Except.isOk (OwnedSlice.new BoxHeader heap src).2 = true ∧
    (OwnedSlice.new BoxHeader heap src = (heap', Except.ok a) →
      OwnedSlice.deref BoxHeader heap' a = src ∧
      OwnedSlice.len BoxHeader heap' a = src.length) :=
  ⟨OwnedSlice.new_box_isOk heap src hlen,
   fun hnew => OwnedSlice.new_box_view heap heap' src a hwf hnew⟩

/-- Witness for C1 at the one-element sequence `[5]` over the empty heap. -/
theorem construct_roundtrip_box_witness :
    Except.isOk (OwnedSlice.new BoxHeader (Heap.empty Nat Nat) [5]).2 = true ∧
    (OwnedSlice.deref BoxHeader (⟨2, [(1, 1, [5])]⟩ : Heap Nat Nat) 1 = [5] ∧
      OwnedSlice.len BoxHeader (⟨2, [(1, 1, [5])]⟩ : Heap Nat Nat) 1 = 1) :=
  ⟨(construct_roundtrip_box (Heap.empty Nat Nat) ⟨2, [(1, 1, [5])]⟩ [5] 1
      (by decide) (by decide)).1,
   (construct_roundtrip_box (Heap.empty Nat Nat) ⟨2, [(1, 1, [5])]⟩ [5] 1
      (by decide) (by decide)).2 (by decide)⟩

/-- C2: For every nonempty sequence, construction under the default header
fails with `TooLong` exactly when the length exceeds 255, and on that error
path the allocator state is untouched (the capacity check runs before any
allocation). -/
theorem too_long_error_box {α : Type} (heap : Heap α Nat) (src : List α)
    (hne : src ≠ []) :
    ((OwnedSlice.new BoxHeader heap src).2 = Except.error TooLong.mk ↔
      255 < src.length) ∧
    (255 < src.length → (OwnedSlice.new BoxHeader heap src).1 = heap) := by
  have herr : 255 < src.length →
      OwnedSlice.new BoxHeader heap src = (heap, Except.error TooLong.mk) := by
    intro hl
    exact OwnedSlice.new_err BoxHeader heap src hne TooLong.mk
      (by rw [BoxHeader.extra_needed_eq, if_pos hl])
  exact ⟨OwnedSlice.new_box_error_iff heap src, fun hl => by rw [herr hl]⟩

set_option maxRecDepth 10000 in
/-- Witness for C2 at a 300-element sequence over the empty heap. -/
theorem too_long_error_box_witness :
    (OwnedSlice.new BoxHeader (Heap.empty Nat Nat)
        (List.replicate 300 0)).2 = Except.error TooLong.mk ∧
    (OwnedSlice.new BoxHeader (Heap.empty Nat Nat)
        (List.replicate 300 0)).1 = Heap.empty Nat Nat :=
  ⟨(too_long_error_box (Heap.empty Nat Nat) (List.replicate 300 0)
      (by decide)).1.mpr (by decide),
   (too_long_error_box (Heap.empty Nat Nat) (List.replicate 300 0)
      (by decide)).2 (by decide)⟩

/-- C3: Every operation on a sentinel handle short-circuits without touching
header or data memory: length is 0, the view is empty, clone returns a
handle that is again the sentinel address (and the heap is untouched), and
drop is a no-op (no teardown, no deallocation, heap untouched).  This holds
for every header implementation. -/
theorem sentinel_shortcircuit {α H : Type} (hi : Header H) (heap : Heap α H)
    (a : Nat) (hs : OwnedSlice.isSentinel a = true) :
    OwnedSlice.len hi heap a = 0 ∧
    OwnedSlice.deref hi heap a = [] ∧
    OwnedSlice.clone hi heap a = (heap, Except.ok sentinelAddr) ∧
    OwnedSlice.drop hi heap a = (heap, [], none) := by
  have ha : a = sentinelAddr := by
    simpa [OwnedSlice.isSentinel, sentinelAddr] using hs
  subst ha
  exact ⟨rfl, rfl, rfl, rfl⟩

/-- Witness for C3 at the sentinel address with the default header. -/
theorem sentinel_shortcircuit_witness :
    OwnedSlice.len BoxHeader (Heap.empty Nat Nat) 0 = 0 ∧
    OwnedSlice.deref BoxHeader (Heap.empty Nat Nat) 0 = [] ∧
    OwnedSlice.clone BoxHeader (Heap.empty Nat Nat) 0 =
      (Heap.empty Nat Nat, Except.ok sentinelAddr) ∧
    OwnedSlice.drop BoxHeader (Heap.empty Nat Nat) 0 =
      (Heap.empty Nat Nat, [], none) :=
  sentinel_shortcircuit BoxHeader (Heap.empty Nat Nat) 0 (by decide)

/-- C4: Constructing from an empty source always succeeds, leaves the
allocator untouched (no allocation), and yields the sentinel handle — the
same handle a default construction produces — whose view is the empty
view.  This holds for every header implementation. -/
theorem empty_construct_sentinel {α H : Type} (hi : Header H)
    (heap : Heap α H) :
    OwnedSlice.new hi heap [] = (heap, Except.ok OwnedSlice.defaultHandle) ∧
    OwnedSlice.isSentinel OwnedSlice.defaultHandle = true ∧
    OwnedSlice.deref hi heap OwnedSlice.defaultHandle = [] :=
  ⟨rfl, rfl, rfl⟩

/-- With the default header `inc` never grants a shared reference, so clone
always re-runs construction over the current view. -/
theorem OwnedSlice.clone_box_eq {α : Type} (heap : Heap α Nat) (a : Nat) :
    OwnedSlice.clone BoxHeader heap a =
      OwnedSlice.new BoxHeader heap (OwnedSlice.deref BoxHeader heap a) := by
  unfold OwnedSlice.clone
  cases hl : heap.lookup a with
  | none => rw [if_neg (by simp)]
  | some c => rw [if_neg (by simp [BoxHeader])]

/-- The sentinel's view is empty for any header and heap. -/
theorem OwnedSlice.deref_sentinel {α H : Type} (hi : Header H)
    (heap : Heap α H) : OwnedSlice.deref hi heap sentinelAddr = [] := rfl

/-- Dropping a live non-sentinel handle whose header reports the final
reference tears down the first `decode_len` elements and frees the cell. -/
theorem OwnedSlice.drop_of_lookup {α H : Type} (hi : Header H)
    (heap : Heap α H) (a : Nat) (hdr : H) (data : List α)
    (ha : a ≠ sentinelAddr) (hl : heap.lookup a = some (hdr, data))
    (hdec : hi.dec hdr = true) :
    OwnedSlice.drop hi heap a =
      (heap.free a, data.take (hi.decode_len hdr),
        some (hi.decode_len hdr)) := by
  unfold OwnedSlice.drop
  rw [if_neg (by simpa [OwnedSlice.isSentinel, sentinelAddr] using ha), hl]
  simp [hdec]

/-- A store through one handle's mutable view does not change the view of a
handle at a different address. -/
theorem OwnedSlice.deref_setElem_ne {α H : Type} (hi : Header H)
    (heap : Heap α H) (b a : Nat) (i : Nat) (v : α) (hne : a ≠ b) :
    OwnedSlice.deref hi (OwnedSlice.setElem heap b i v) a =
      OwnedSlice.deref hi heap a := by
  unfold OwnedSlice.setElem
  by_cases hb : OwnedSlice.isSentinel b = true
  · rw [if_pos hb]
  · rw [if_neg hb]
    unfold OwnedSlice.deref
    by_cases hs : OwnedSlice.isSentinel a = true
    · rw [if_pos hs, if_pos hs]
    · rw [if_neg hs, if_neg hs,
        Heap.lookup_update_ne heap b (fun c => (c.1, c.2.set i v)) a hne]

/-- C5: For every handle built with the default (exclusive-owner) header,
clone produces an independent deep copy: its view equals the original's, its
address differs from the original's whenever the original is a real
allocation (`inc` always returns `false`, so clones never alias), and a
store through either handle's mutable view leaves every element of the
other handle's view unchanged. -/
theorem clone_box_deep_copy {α : Type} (heap0 heap1 heap2 : Heap α Nat)
    (src : List α) (a b : Nat) (hwf : heap0.WF)
    (hnew : OwnedSlice.new BoxHeader heap0 src = (heap1, Except.ok a))
    (hclone : OwnedSlice.clone BoxHeader heap1 a = (heap2, Except.ok b)) :
    OwnedSlice.deref BoxHeader heap2 b = OwnedSlice.deref BoxHeader heap2 a ∧
    (a ≠ sentinelAddr → b ≠ a) ∧
    (∀ i v, OwnedSlice.deref BoxHeader (OwnedSlice.setElem heap2 b i v) a =
        OwnedSlice.deref BoxHeader heap2 a) ∧
    (∀ i v, OwnedSlice.deref BoxHeader (OwnedSlice.setElem heap2 a i v) b =
        OwnedSlice.deref BoxHeader heap2 b) := by
  rcases OwnedSlice.new_box_ok_cases heap0 heap1 src a hnew with
    ⟨rfl, rfl, rfl⟩ | ⟨hne, hlen, h1eq, haeq⟩
  · rw [OwnedSlice.clone_box_eq, OwnedSlice.deref_sentinel,
      OwnedSlice.new_nil] at hclone
    injection hclone with e1 e2
    injection e2 with e3
    subst e1
    subst e3
    exact ⟨rfl, fun h => absurd rfl h, fun i v => rfl, fun i v => rfl⟩
  · subst h1eq
    subst haeq
    have hwf1 : ((heap0.alloc (BoxHeader.encode_len src.length) src).1).WF :=
      hwf.alloc _ _
    have ha : heap0.nextAddr ≠ sentinelAddr := Heap.nextAddr_ne_sentinel hwf
    have hl1 := Heap.lookup_alloc_self heap0
      (BoxHeader.encode_len src.length) src
    have hd1 : OwnedSlice.deref BoxHeader
        (heap0.alloc (BoxHeader.encode_len src.length) src).1
        heap0.nextAddr = src := by
      rw [OwnedSlice.deref_of_lookup BoxHeader _ _ _ _ ha hl1,
        BoxHeader.decode_encode src.length hlen, List.take_length]
    rw [OwnedSlice.clone_box_eq, hd1] at hclone
    rcases OwnedSlice.new_box_ok_cases _ _ _ _ hclone with
      ⟨h, _, _⟩ | ⟨_, _, h2eq, hbeq⟩
    · exact absurd h hne
    · subst h2eq
      subst hbeq
      have hstep : (heap0.alloc (BoxHeader.encode_len src.length)
          src).1.nextAddr = heap0.nextAddr + 1 := by
        simp [Heap.alloc]
      have hab : heap0.nextAddr ≠
          (heap0.alloc (BoxHeader.encode_len src.length) src).1.nextAddr := by
        omega
      have hb : (heap0.alloc (BoxHeader.encode_len src.length)
          src).1.nextAddr ≠ sentinelAddr := Heap.nextAddr_ne_sentinel hwf1
      have hl2 := Heap.lookup_alloc_self
        (heap0.alloc (BoxHeader.encode_len src.length) src).1
        (BoxHeader.encode_len src.length) src
      have hl2a : ((heap0.alloc (BoxHeader.encode_len src.length)
            src).1.alloc (BoxHeader.encode_len src.length) src).1.lookup
          heap0.nextAddr =
          some (BoxHeader.encode_len src.length, src) := by
        rw [Heap.lookup_alloc_ne _ _ _ _ hab, hl1]
    -- views of both handles after the clone
      have hda : OwnedSlice.deref BoxHeader
          ((heap0.alloc (BoxHeader.encode_len src.length) src).1.alloc
            (BoxHeader.encode_len src.length) src).1 heap0.nextAddr = src := by
        rw [OwnedSlice.deref_of_lookup BoxHeader _ _ _ _ ha hl2a,
          BoxHeader.decode_encode src.length hlen, List.take_length]
      have hdb : OwnedSlice.deref BoxHeader
          ((heap0.alloc (BoxHeader.encode_len src.length) src).1.alloc
            (BoxHeader.encode_len src.length) src).1
          (heap0.alloc (BoxHeader.encode_len src.length) src).1.nextAddr =
          src := by
        rw [OwnedSlice.deref_of_lookup BoxHeader _ _ _ _ hb hl2,
          BoxHeader.decode_encode src.length hlen, List.take_length]
      refine ⟨by rw [hda, hdb], fun _ => fun h => hab h.symm, ?_, ?_⟩
      · intro i v
        exact OwnedSlice.deref_setElem_ne BoxHeader _ _ _ i v hab
      · intro i v
        exact OwnedSlice.deref_setElem_ne BoxHeader _ _ _ i v
          (fun h => hab h.symm)

/-- Witness for C5: clone of the one-element slice `[5]`, then a store of
`9` at index 0 through the clone; the original still views `[5]`. -/
theorem clone_box_deep_copy_witness :
    OwnedSlice.deref BoxHeader
        (⟨3, [(2, 1, [5]), (1, 1, [5])]⟩ : Heap Nat Nat) 2 =
      OwnedSlice.deref BoxHeader
        (⟨3, [(2, 1, [5]), (1, 1, [5])]⟩ : Heap Nat Nat) 1 ∧
    OwnedSlice.deref BoxHeader
        (OwnedSlice.setElem
          (⟨3, [(2, 1, [5]), (1, 1, [5])]⟩ : Heap Nat Nat) 2 0 9) 1 =
      OwnedSlice.deref BoxHeader
        (⟨3, [(2, 1, [5]), (1, 1, [5])]⟩ : Heap Nat Nat) 1 :=
  ⟨(clone_box_deep_copy (Heap.empty Nat Nat) ⟨2, [(1, 1, [5])]⟩
      ⟨3, [(2, 1, [5]), (1, 1, [5])]⟩ [5] 1 2 (by decide) (by decide)
      (by decide)).1,
   (clone_box_deep_copy (Heap.empty Nat Nat) ⟨2, [(1, 1, [5])]⟩
      ⟨3, [(2, 1, [5]), (1, 1, [5])]⟩ [5] 1 2 (by decide) (by decide)
      (by decide)).2.2.1 0 9⟩

/-- C6: Dropping the (only) owning handle of a real allocation built with
the default header tears down each of its `len` elements exactly once, in
order — the teardown trace is exactly the stored sequence — and then
releases the allocation (the cell disappears from the heap) using the
layout recomputed from the length read back from the header. -/
theorem drop_box_teardown {α : Type} (heap0 heap1 : Heap α Nat)
    (src : List α) (a : Nat) (hwf : heap0.WF) (hne : src ≠ [])
    (hnew : OwnedSlice.new BoxHeader heap0 src = (heap1, Except.ok a)) :
    OwnedSlice.drop BoxHeader heap1 a =
      (heap1.free a, src, some src.length) ∧
    (heap1.free a).cells = heap0.cells := by
  rcases OwnedSlice.new_box_ok_cases heap0 heap1 src a hnew with
    ⟨h, _, _⟩ | ⟨_, hlen, h1eq, haeq⟩
  · exact absurd h hne
  · subst h1eq
    subst haeq
    have ha : heap0.nextAddr ≠ sentinelAddr := Heap.nextAddr_ne_sentinel hwf
    have hl := Heap.lookup_alloc_self heap0
      (BoxHeader.encode_len src.length) src
    constructor
    · rw [OwnedSlice.drop_of_lookup BoxHeader _ _ _ _ ha hl
          (BoxHeader.dec_eq_true _),
        BoxHeader.decode_encode src.length hlen, List.take_length]
    · simp only [Heap.free, Heap.alloc]
      rw [List.filter_cons_of_neg (by simp)]
      apply List.filter_eq_self.mpr
      intro c hc
      have hcl := hwf.2 c hc
      simp only [bne_iff_ne, ne_eq, decide_eq_true_eq]
      omega

/-- Witness for C6 at the one-element slice `[5]`. -/
theorem drop_box_teardown_witness :
    OwnedSlice.drop BoxHeader (⟨2, [(1, 1, [5])]⟩ : Heap Nat Nat) 1 =
      ((⟨2, [(1, 1, [5])]⟩ : Heap Nat Nat).free 1, [5], some 1) ∧
    ((⟨2, [(1, 1, [5])]⟩ : Heap Nat Nat).free 1).cells =
      (Heap.empty Nat Nat).cells :=
  drop_box_teardown (Heap.empty Nat Nat) ⟨2, [(1, 1, [5])]⟩ [5] 1
    (by decide) (by decide) (by decide)

/-- C7: For every handle obtained from a successful construction with the
default header, the re-construction clone performs over the current view
cannot fail the length check: the `expect` in `clone` is unreachable, since
the handle's length was proven representable at original construction. -/
theorem clone_box_infallible {α : Type} (heap0 heap1 : Heap α Nat)
    (src : List α) (a : Nat) (hwf : heap0.WF)
    (hnew : OwnedSlice.new BoxHeader heap0 src = (heap1, Except.ok a)) :
    Except.isOk (OwnedSlice.clone BoxHeader heap1 a).2 = true := by
  rw [OwnedSlice.clone_box_eq,
    (OwnedSlice.new_box_view heap0 heap1 src a hwf hnew).1]
  rcases OwnedSlice.new_box_ok_cases heap0 heap1 src a hnew with
    ⟨rfl, _, _⟩ | ⟨_, hlen, _, _⟩
  · exact OwnedSlice.new_box_isOk _ _ (by simp)
  · exact OwnedSlice.new_box_isOk _ _ hlen

/-- Witness for C7 at the one-element slice `[5]`. -/
theorem clone_box_infallible_witness :
    Except.isOk
      (OwnedSlice.clone BoxHeader (⟨2, [(1, 1, [5])]⟩ : Heap Nat Nat) 1).2 =
      true :=
  clone_box_infallible (Heap.empty Nat Nat) ⟨2, [(1, 1, [5])]⟩ [5] 1
    (by decide) (by decide)

/-- C8: Constructing a text value from a string of at most 255 bytes
succeeds with a text view equal to the source bytes, and display formatting
writes exactly those bytes.  In particular for `"Hello"`: construction
succeeds, the dereferenced view is the bytes of `Hello`, display produces
the unquoted `Hello`, and debug produces the quoted `"Hello"`. -/
theorem str_roundtrip_hello (heap0 heap1 : Heap UInt8 Nat) (s : List UInt8)
    (a : Nat) (hwf : heap0.WF) (hlen : s.length ≤ 255)
    (hnew : Str.new BoxHeader heap0 s = (heap1, Except.ok a)) :
    Except.isOk (Str.new BoxHeader heap0 s).2 = true ∧
    Str.deref BoxHeader heap1 a = s ∧
    Str.display BoxHeader heap1 a = s ∧
    Except.isOk (Str.new BoxHeader (Heap.empty UInt8 Nat) helloBytes).2 =
      true ∧
    Str.deref BoxHeader
      (Str.new BoxHeader (Heap.empty UInt8 Nat) helloBytes).1 1 =
      helloBytes ∧
    Str.display BoxHeader
      (Str.new BoxHeader (Heap.empty UInt8 Nat) helloBytes).1 1 =
      helloBytes ∧
    Str.debugFmt BoxHeader
      (Str.new BoxHeader (Heap.empty UInt8 Nat) helloBytes).1 1 =
      34 :: (helloBytes ++ [34]) := by
  have hderef : OwnedSlice.deref BoxHeader heap1 a = s :=
    (OwnedSlice.new_box_view heap0 heap1 s a hwf hnew).1
  exact ⟨OwnedSlice.new_box_isOk heap0 s hlen, hderef, hderef,
    by decide, by decide, by decide, by decide⟩

/-- Witness for C8 at the string `"Hello"` over the empty heap. -/
theorem str_roundtrip_hello_witness :
    Str.deref BoxHeader (⟨2, [(1, 5, helloBytes)]⟩ : Heap UInt8 Nat) 1 =
      helloBytes ∧
    Str.debugFmt BoxHeader
      (Str.new BoxHeader (Heap.empty UInt8 Nat) helloBytes).1 1 =
      34 :: (helloBytes ++ [34]) :=
  ⟨(str_roundtrip_hello (Heap.empty UInt8 Nat) ⟨2, [(1, 5, helloBytes)]⟩
      helloBytes 1 (by decide) (by decide) (by decide)).2.1,
   (str_roundtrip_hello (Heap.empty UInt8 Nat) ⟨2, [(1, 5, helloBytes)]⟩
      helloBytes 1 (by decide) (by decide) (by decide)).2.2.2.2.2.2⟩

set_option maxRecDepth 20000 in
/-- C10: Text construction with the default header fails with `TooLong`
exactly when the UTF-8 byte length of the string exceeds 255 — the limit
counts bytes, not characters: 100 copies of the three-byte character `あ`
(300 bytes in total) are rejected although the character count, 100, is
within the limit. -/
theorem str_byte_limit (heap : Heap UInt8 Nat) (cs : List Char) :
    ((Str.new BoxHeader heap (rustStrBytes cs)).2 = Except.error TooLong.mk ↔
      255 < (rustStrBytes cs).length) ∧
    (Str.new BoxHeader heap
        (rustStrBytes (List.replicate 100 'あ'))).2 =
      Except.error TooLong.mk ∧
    (List.replicate 100 'あ').length ≤ 255 :=
  ⟨OwnedSlice.new_box_error_iff heap (rustStrBytes cs),
   (OwnedSlice.new_box_error_iff heap
      (rustStrBytes (List.replicate 100 'あ'))).mpr (by decide),
   by decide⟩

end Squash
